import Mathlib

/-!
Shallow embedding of the gitpod ws-scheduler "scaler" package
(components/ee/ws-scheduler/pkg/scaler/controller.go and the prescale
driver in the same package), together with theorems settling the spec's
claims about it.

Modelling conventions:
* Go `int` is modelled as `Int`; counts of loop iterations as `Nat`.
* A `time.Time` instant is modelled as `Nat` seconds; the time-of-day
  projection `time.Date(0,1,1,h,m,s,ns,loc)` becomes `t % secondsPerDay`.
* Channel-driven loops become pure functions over the list of events the
  loop consumes, emitting the list of values it would send.
* RPC calls are assumed to succeed (the claims under study concern the
  success path); fresh UUIDs are supplied by an injected `idGen`.
-/

namespace Scaler

/-- Structure `WorkspaceCount` from controller.go: current counts of running
workspaces by type (Go ints). -/
structure WorkspaceCount where
  Regular : Int
  Prebuild : Int
  Ghost : Int
deriving DecidableEq, Repr

/-- Function `ConstantSetpointController.Control` (controller.go): the select loop
receives workspace counts and, for each, sends `Target - c.Ghost`.
Embedded as a recursion over the received counts, mirroring the loop. -/
def constantControl (target : Int) : List WorkspaceCount → List Int
  | [] => []
  | c :: rest => (target - c.Ghost) :: constantControl target rest

/-- Events consumed by `TimedFunctionController.Control`: ticker ticks
and workspace-count updates. -/
inductive TimedEvent where
  | tick (t : Nat)
  | count (c : WorkspaceCount)
deriving DecidableEq, Repr

/-- Observable outputs of `TimedFunctionController.Control`: the
`SetpointChanged` callback invocations and the deltas sent on `res`. -/
inductive TimedOut where
  | setpointChanged (newTarget : Int)
  | delta (d : Int)
deriving DecidableEq, Repr

/-- One iteration of the select loop in `TimedFunctionController.Control`
(controller.go). On a tick the code computes `sp := tfc.F(t)` and calls
`tfc.SetpointChanged(sp)`; the local variable `target` is not assigned.
On a count it sends `target - c.Ghost`. Returns the new `target` and the
output produced. -/
def timedStep (F : Nat → Int) (target : Int) : TimedEvent → Int × TimedOut
  | .tick t => (target, .setpointChanged (F t))
  | .count c => (target, .delta (target - c.Ghost))

/-- The select loop of `TimedFunctionController.Control` over a list of
events, threading `target` through `timedStep`. -/
def timedRun (F : Nat → Int) (target : Int) : List TimedEvent → List TimedOut
  | [] => []
  | e :: rest =>
    let s := timedStep F target e
    s.2 :: timedRun F s.1 rest

/-- Function `TimedFunctionController.Control`: the goroutine starts with
`target := 0`. -/
def timedControl (F : Nat → Int) (events : List TimedEvent) : List TimedOut :=
  timedRun F 0 events

/-- Seconds in a day; the modulus of the time-of-day projection. -/
def secondsPerDay : Nat := 86400

/-- Structure `SwitchedSetpoint` from controller.go: a setpoint valid from a
particular time of day. The `TimeOfDay` is modelled as seconds since
midnight. -/
structure SwitchedSetpoint where
  time : Nat
  setpoint : Int
deriving DecidableEq, Repr

/-- The loop body of `SwitchedSetpointController.findSwitchpoint`
(controller.go). `prev` is `some` of the previous element (Go's
`Setpoints[i-1]`), `none` at `i = 0`. For each element: if `tod` equals
its time, return it; if `tod` is after it, continue; otherwise return
`prev` (which is `nil` at `i = 0`). When the loop completes, Go returns
`Setpoints[len-1]`, which is exactly `prev` at that point. -/
def fsLoop (tod : Nat) (prev : Option SwitchedSetpoint) :
    List SwitchedSetpoint → Option SwitchedSetpoint
  | [] => prev
  | sp :: rest =>
    if tod = sp.time then some sp
    else if sp.time < tod then fsLoop tod (some sp) rest
    else prev

/-- Function `SwitchedSetpointController.findSwitchpoint` (controller.go): returns
`nil` on an empty list, otherwise projects `t` to its time of day and
scans the setpoint list. -/
def findSwitchpoint (sps : List SwitchedSetpoint) (t : Nat) : Option SwitchedSetpoint :=
  match sps with
  | [] => none
  | _ :: _ => fsLoop (t % secondsPerDay) none sps

/-- Modelled from the spec's words, for comparison with `findSwitchpoint`:
"return the latest entry whose time ≤ tod" — the last element of the
sublist of entries whose time is at most the time of day of `t`. -/
def latestSwitchpointLE (sps : List SwitchedSetpoint) (t : Nat) : Option SwitchedSetpoint :=
  (sps.filter (fun sp => decide (sp.time ≤ t % secondsPerDay))).getLast?

/-- Strict ordering of setpoints by time of day. -/
def spLT (a b : SwitchedSetpoint) : Prop := a.time < b.time

/-- Ordering of setpoints by time of day, as the comparator
`time.Time(setpoints[i].Time).Before(time.Time(setpoints[j].Time))`
sorts: adjacent elements of the result satisfy the non-strict order. -/
def spLE (a b : SwitchedSetpoint) : Prop := a.time ≤ b.time

instance : DecidableRel spLT := fun a b => Nat.decLt a.time b.time

instance : DecidableRel spLE := fun a b => Nat.decLe a.time b.time

instance : IsTotal SwitchedSetpoint spLE := ⟨fun a b => Nat.le_total a.time b.time⟩

instance : IsTrans SwitchedSetpoint spLE := ⟨fun _ _ _ h1 h2 => Nat.le_trans h1 h2⟩

instance : IsAntisymm SwitchedSetpoint spLT :=
  ⟨fun _ _ h h' => absurd h (Nat.lt_asymm h')⟩

/-- The call `sort.Slice(setpoints, Before)` in `NewSwitchedSetpointController`
(controller.go), modelled as insertion sort on the time-of-day order
(Go's sort runs insertion sort on short slices; on distinct keys every
comparison sort agrees). -/
def sortSetpoints (l : List SwitchedSetpoint) : List SwitchedSetpoint :=
  List.insertionSort spLE l

/-- Function `NewSwitchedSetpointController` (controller.go): rejects a negative
default setpoint, otherwise stores the default and the sorted setpoint
list. -/
def newSwitchedSetpointController (defaultSetpoint : Int)
    (setpoints : List SwitchedSetpoint) : Option (Int × List SwitchedSetpoint) :=
  if defaultSetpoint < 0 then none
  else some (defaultSetpoint, sortSetpoints setpoints)

/-- Result of `startGhostWorkspaces` on the success path: the returned
`ids` slice and the number of `StartWorkspace` RPCs actually issued. -/
structure StartResult where
  ids : List String
  calls : Nat
deriving DecidableEq, Repr

/-- The loop of `WorkspaceManagerPrescaleDriver.startGhostWorkspaces`
(run.go). `acc` is the `ids` slice, allocated as `make([]string, count)`
by the caller; `i` is the loop index and `rem` the remaining iterations.
If `status.Count.Ghost + i > MaxGhostWorkspaces` the function returns the
`ids` slice as it stands; otherwise it writes the fresh instance id into
`ids[i]`, issues the `StartWorkspace` RPC (assumed to succeed) and
continues. -/
def sgwGo (maxGhost ghost : Int) (idGen : Nat → String) :
    Nat → Nat → List String → StartResult
  | _, 0, acc => ⟨acc, 0⟩
  | i, rem + 1, acc =>
    if maxGhost < ghost + (i : Int) then ⟨acc, 0⟩
    else
      let r := sgwGo maxGhost ghost idGen (i + 1) rem (acc.set i (idGen i))
      ⟨r.ids, r.calls + 1⟩

/-- Function `WorkspaceManagerPrescaleDriver.startGhostWorkspaces` (run.go) on the
success path: `ids := make([]string, count)` — a slice of `count` empty
strings — then the start loop. `ghost` is `status.Count.Ghost` and
`maxGhost` is `Config.MaxGhostWorkspaces`. -/
def startGhostWorkspaces (maxGhost ghost : Int) (count : Nat)
    (idGen : Nat → String) : StartResult :=
  sgwGo maxGhost ghost idGen 0 count (List.replicate count "")

/-- Outcome of one delta event in the driver's main loop: the candidate
ids passed to `stopGhostWorkspaces`, the `ids` list returned by
`startGhostWorkspaces`, and the number of start RPCs issued. -/
structure DeltaResult where
  stopped : List String
  started : List String
  startCalls : Nat
deriving DecidableEq, Repr

/-- The `case d := <-delta` branch of `WorkspaceManagerPrescaleDriver.Run`
(run.go), on the success path. `d = 0` is skipped. For `d < 0` the code
sets `d *= -1`, clamps `d` to `len(status.DeletionCandidates)` and stops
`status.DeletionCandidates[:d]`; afterwards the separate `if d > 0` test
sees the mutated `d` and, when it is positive, also calls
`startGhostWorkspaces`. For an original `d > 0` only the start happens.
(The `reactionDelay` sleep has no functional effect here.) -/
def handleDelta (maxGhost ghost : Int) (cands : List String)
    (idGen : Nat → String) (d : Int) : DeltaResult :=
  if d = 0 then ⟨[], [], 0⟩
  else if d < 0 then
    let d1 : Int := -d
    let d2 : Int := if (cands.length : Int) < d1 then (cands.length : Int) else d1
    let stopped := cands.take d2.toNat
    if 0 < d2 then
      let r := startGhostWorkspaces maxGhost ghost d2.toNat idGen
      ⟨stopped, r.ids, r.calls⟩
    else ⟨stopped, [], 0⟩
  else
    let r := startGhostWorkspaces maxGhost ghost d.toNat idGen
    ⟨[], r.ids, r.calls⟩

/-- Type `api.WorkspaceType` restricted to the cases `produceStatus` tallies. -/
inductive WorkspaceType where
  | regular
  | prebuild
  | ghost
deriving DecidableEq, Repr

/-- One entry of the `state` map in `maintainWorkspaceStatus` (run.go):
workspace id, type, and start time (seconds). -/
structure WorkspaceEntry where
  id : String
  wsType : WorkspaceType
  started : Nat
deriving DecidableEq, Repr

/-- Structure `workspaceStatus` from run.go: the counts and the deletion
candidates. -/
structure WorkspaceStatus where
  Count : WorkspaceCount
  DeletionCandidates : List String
deriving DecidableEq, Repr

/-- Ordering of state entries by start time, as `produceStatus` sorts the
deletion candidates with `sort.Slice` on `Started.Before`. -/
def startedLE (a b : WorkspaceEntry) : Prop := a.started ≤ b.started

instance : DecidableRel startedLE := fun a b => Nat.decLe a.started b.started

instance : IsTotal WorkspaceEntry startedLE := ⟨fun a b => Nat.le_total a.started b.started⟩

instance : IsTrans WorkspaceEntry startedLE := ⟨fun _ _ _ h1 h2 => Nat.le_trans h1 h2⟩

/-- The `produceStatus` closure in `maintainWorkspaceStatus` (run.go):
iterate over `state`, tally the counts by type in a switch, and append
EVERY id — the append sits outside the switch — to `DeletionCandidates`,
which is then sorted ascending by start time. -/
def produceStatus (state : List WorkspaceEntry) : WorkspaceStatus :=
  { Count :=
      { Regular := ((state.filter (fun e => e.wsType = WorkspaceType.regular)).length : Int)
        Prebuild := ((state.filter (fun e => e.wsType = WorkspaceType.prebuild)).length : Int)
        Ghost := ((state.filter (fun e => e.wsType = WorkspaceType.ghost)).length : Int) }
    DeletionCandidates := (List.insertionSort startedLE state).map (fun e => e.id) }

/-- A deterministic stand-in for the fresh instance UUIDs of
`startGhostWorkspaces`, indexed by the loop iteration that draws them. -/
def ghostId (i : Nat) : String := "ghost-" ++ toString i

/-- The renewal-percentage validation in `NewWorkspaceManagerPrescaleDriver`
(run.go): `if config.Renewal.Percentage < 0 && 100 < config.Renewal.Percentage`
— note the conjunction. -/
def renewalPercentageRejected (percentage : Int) : Bool :=
  decide (percentage < 0) && decide (100 < percentage)

/-- Function `NewWorkspaceManagerPrescaleDriver` (run.go), restricted to its
configuration validation: returns the configuration error message when
the (conjunctive) percentage test fires, `none` otherwise. -/
def newWorkspaceManagerPrescaleDriver (percentage : Int) : Option String :=
  if renewalPercentageRejected percentage then
    some "renewal.percentage must be between 0 and 100 (inclusive)"
  else none

/-- The number of start RPCs issued by the start loop: one per iteration
until either the requested count is exhausted or the ghost count reaches
the cap, i.e. `min rem ((maxGhost + 1 - ghost - i).toNat)` from index `i`. -/
theorem sgwGo_calls (maxGhost ghost : Int) (idGen : Nat → String) :
    ∀ (rem i : Nat) (acc : List String),
      (sgwGo maxGhost ghost idGen i rem acc).calls =
        min rem (maxGhost + 1 - ghost - (i : Int)).toNat := by
  intro rem
  induction rem with
  | zero => intro i acc; simp [sgwGo]
  | succ rem ih =>
    intro i acc
    simp only [sgwGo]
    split
    · rename_i h
      have h0 : (maxGhost + 1 - ghost - (i : Int)).toNat = 0 := by omega
      simp [h0]
    · rename_i h
      simp only [ih (i + 1)]
      have hcast : ((i + 1 : Nat) : Int) = (i : Int) + 1 := by push_cast; ring
      rw [hcast]
      omega

/-- Lemma expressing `getLast?` of a cons as an `Option.or`. -/
theorem getLast?_cons_or {α : Type} (a : α) (l : List α) :
    (a :: l).getLast? = l.getLast?.or (some a) := by
  induction l generalizing a with
  | nil => simp
  | cons b l ih =>
    rw [List.getLast?_cons_cons, ih b]
    cases hl : l.getLast? <;> simp [Option.or]

/-- On a list strictly sorted by time of day, the scan loop returns the
last entry whose time is at most `tod`, falling back to `prev` when no
entry qualifies. -/
theorem fsLoop_filter (tod : Nat) :
    ∀ (l : List SwitchedSetpoint), l.Pairwise spLT →
    ∀ prev, fsLoop tod prev l =
      ((l.filter (fun sp => decide (sp.time ≤ tod))).getLast?).or prev := by
  intro l
  induction l with
  | nil => intro _ prev; simp [fsLoop]
  | cons sp rest ih =>
    intro hp prev
    rcases List.pairwise_cons.mp hp with ⟨hhead, htail⟩
    by_cases h1 : tod = sp.time
    · have hrest : rest.filter (fun x => decide (x.time ≤ tod)) = [] := by
        apply List.filter_eq_nil_iff.mpr
        intro a ha
        have hlt : sp.time < a.time := hhead a ha
        simp only [decide_eq_true_eq]
        omega
      have hkeep : decide (sp.time ≤ tod) = true := by
        simp only [decide_eq_true_eq]; omega
      have hstep : fsLoop tod prev (sp :: rest) = some sp := by
        simp [fsLoop, h1]
      have hfc : (sp :: rest).filter (fun x => decide (x.time ≤ tod)) =
          sp :: rest.filter (fun x => decide (x.time ≤ tod)) := by
        simp [List.filter_cons, hkeep]
      rw [hstep, hfc, hrest]
      simp
    · by_cases h2 : sp.time < tod
      · have hstep : fsLoop tod prev (sp :: rest) = fsLoop tod (some sp) rest := by
          simp [fsLoop, h1, h2]
        have hkeep : decide (sp.time ≤ tod) = true := by
          simp only [decide_eq_true_eq]; omega
        have hfc : (sp :: rest).filter (fun x => decide (x.time ≤ tod)) =
            sp :: rest.filter (fun x => decide (x.time ≤ tod)) := by
          simp [List.filter_cons, hkeep]
        rw [hstep, ih htail (some sp), hfc, getLast?_cons_or]
        cases hl : (rest.filter (fun x => decide (x.time ≤ tod))).getLast? <;>
          simp [Option.or]
      · have h3 : tod < sp.time := by omega
        have hall : (sp :: rest).filter (fun x => decide (x.time ≤ tod)) = [] := by
          apply List.filter_eq_nil_iff.mpr
          intro a ha
          simp only [decide_eq_true_eq]
          rcases List.mem_cons.mp ha with h | h
          · subst h; omega
          · have hlt : sp.time < a.time := hhead a h
            omega
        simp [fsLoop, h1, h2, hall]

/-- On a list strictly sorted by time of day, the scan loop finds an
entry whose time equals `tod` exactly. -/
theorem fsLoop_mem_eq (tod : Nat) :
    ∀ (l : List SwitchedSetpoint), l.Pairwise spLT →
    ∀ prev sp, sp ∈ l → sp.time = tod → fsLoop tod prev l = some sp := by
  intro l
  induction l with
  | nil => intro _ _ sp h; cases h
  | cons a rest ih =>
    intro hp prev sp hmem heq
    rcases List.pairwise_cons.mp hp with ⟨hhead, htail⟩
    rcases List.mem_cons.mp hmem with h | h
    · subst h
      have hc : tod = sp.time := heq.symm
      simp [fsLoop, hc]
    · have hlt : a.time < sp.time := hhead sp h
      have h1 : ¬ tod = a.time := by omega
      have h2 : a.time < tod := by omega
      simp only [fsLoop, if_neg h1, if_pos h2]
      exact ih htail (some a) sp h heq

/-- C9: for every sequence of WorkspaceCount observations, the
ConstantSetpointController with target T emits, for each observation c in
order, exactly T − c.Ghost; with target 10 and ghost counts 0, 10, 5 the
outputs are 10, 0, 5. -/
theorem constantControl_emits (target : Int) (counts : List WorkspaceCount) :
    constantControl target counts = counts.map (fun c => target - c.Ghost) ∧
    constantControl 10 [⟨0, 0, 0⟩, ⟨0, 0, 10⟩, ⟨0, 0, 5⟩] = [10, 0, 5] := by
  constructor
  · induction counts with
    | nil => rfl
    | cons c rest ih => simp [constantControl, ih]
  · decide

/-- C4: the claim says the TimedFunctionController emits
`target − c.Ghost` with `target = f(most recent tick)`, e.g. 18000 after
a tick with `f(t) = 18000` and a count with ghost 0. The code never
assigns the sampled setpoint to `target` (every step leaves `target`
unchanged), so after the tick the emitted delta is 0, not 18000. -/
theorem timedControl_ignores_setpoint :
    (∀ (F : Nat → Int) (target : Int) (e : TimedEvent),
        (timedStep F target e).1 = target) ∧
    timedControl (fun t => (t : Int)) [TimedEvent.tick 18000, TimedEvent.count ⟨0, 0, 0⟩] =
      [TimedOut.setpointChanged 18000, TimedOut.delta 0] := by
  constructor
  · intro F target e; cases e <;> rfl
  · decide

/-- C1: the claim says a delta event with d < 0 stops
`min(|d|, len(deletionCandidates))` oldest candidates and issues NO start
calls in that iteration. On d = −2 with candidates ["a","b","c"] the code
stops ["a","b"] but then, because `d` was negated and clamped in place,
the `if d > 0` test also fires and two start calls are issued. -/
theorem handleDelta_negative_also_starts :
    handleDelta 10 3 ["a", "b", "c"] ghostId (-2) =
      ⟨["a", "b"], ["ghost-0", "ghost-1"], 2⟩ ∧
    (handleDelta 10 3 ["a", "b", "c"] ghostId (-2)).startCalls ≠ 0 := by decide

/-- C2 counterexample: the claim says that with maxGhostWorkspaces = 5,
observed ghosts = 4 and a request of +3, exactly ONE start is issued.
The code's abort test is `ghost + i > max`, not `≥`, so two starts are
issued. -/
theorem startGhostWorkspaces_cap_counterexample :
    (startGhostWorkspaces 5 4 3 ghostId).calls = 2 ∧
    (startGhostWorkspaces 5 4 3 ghostId).calls ≠ 1 := by decide

/-- C2 (amended): the start loop issues a start in iteration i exactly
when the observed ghost count plus i is at most maxGhostWorkspaces, so
the number of start calls is `min count (max + 1 − ghost)` (clamped at
zero); in particular no start is issued once ghost > max, and with
max = 5, ghost = 4, count = 3 exactly two starts are issued. -/
theorem startGhostWorkspaces_calls_eq (maxGhost ghost : Int) (count : Nat)
    (idGen : Nat → String) :
    (startGhostWorkspaces maxGhost ghost count idGen).calls =
      min count (maxGhost + 1 - ghost).toNat := by
  unfold startGhostWorkspaces
  rw [sgwGo_calls]
  norm_num

/-- C3: the claim says the returned id list contains exactly the ids of
the starts actually issued, also when the cap stops the loop early. The
code allocates `ids = make([]string, count)` and returns it on the early
cap exit, so with max = 5, ghost = 4, count = 3 only two starts are
issued yet the returned list has three entries, the last being the empty
string — an id that was never issued. -/
theorem startGhostWorkspaces_padding :
    (startGhostWorkspaces 5 4 3 ghostId).ids = ["ghost-0", "ghost-1", ""] ∧
    (startGhostWorkspaces 5 4 3 ghostId).calls = 2 ∧
    "" ∈ (startGhostWorkspaces 5 4 3 ghostId).ids := by decide

/-- C5: the claim says every emitted status has deletionCandidates
containing only ghost-type workspace ids, hence
len(deletionCandidates) ≤ count.ghost. `produceStatus` appends EVERY id
to the candidate list (the append sits outside the type switch), so a
state holding a single REGULAR workspace yields that id as a deletion
candidate while count.ghost = 0. -/
theorem produceStatus_nonghost_candidates :
    (produceStatus [⟨"w1", WorkspaceType.regular, 0⟩]).DeletionCandidates = ["w1"] ∧
    (produceStatus [⟨"w1", WorkspaceType.regular, 0⟩]).Count.Ghost = 0 ∧
    ¬(((produceStatus [⟨"w1", WorkspaceType.regular, 0⟩]).DeletionCandidates.length : Int) ≤
        (produceStatus [⟨"w1", WorkspaceType.regular, 0⟩]).Count.Ghost) := by decide

/-- C6: the claim says construction fails fast when renewal.percentage
lies outside [0, 100]. The code's test is the conjunction
`percentage < 0 && 100 < percentage`, which no integer satisfies, so the
construction never returns the configuration error — not even for
percentage 150 or −5. -/
theorem renewalPercentage_never_rejected (percentage : Int) :
    newWorkspaceManagerPrescaleDriver percentage = none := by
  have h : renewalPercentageRejected percentage = false := by
    unfold renewalPercentageRejected
    by_cases hp : percentage < 0
    · simp [show ¬(100 < percentage) by omega]
    · simp [hp]
  simp [newWorkspaceManagerPrescaleDriver, h]

/-- C7: for every time t and every time-sorted setpoint list,
findSwitchpoint projects t to its time of day and returns the latest
entry whose time is ≤ tod (the last element of the filtered list); it
returns none when the list is empty or when every entry's time is
strictly after tod; and when tod equals an entry's time exactly it
returns that entry. -/
theorem findSwitchpoint_latest (sps : List SwitchedSetpoint) (t : Nat)
    (hs : sps.Pairwise spLT) :
    findSwitchpoint sps t = latestSwitchpointLE sps t ∧
    (sps = [] → findSwitchpoint sps t = none) ∧
    ((∀ sp ∈ sps, t % secondsPerDay < sp.time) → findSwitchpoint sps t = none) ∧
    (∀ sp ∈ sps, sp.time = t % secondsPerDay → findSwitchpoint sps t = some sp) := by
  have hmain : findSwitchpoint sps t = latestSwitchpointLE sps t := by
    cases sps with
    | nil => rfl
    | cons a rest =>
      show fsLoop (t % secondsPerDay) none (a :: rest) = _
      rw [fsLoop_filter (t % secondsPerDay) (a :: rest) hs none]
      unfold latestSwitchpointLE
      cases h : ((a :: rest).filter fun sp => decide (sp.time ≤ t % secondsPerDay)).getLast? <;>
        simp [Option.or]
  refine ⟨hmain, ?_, ?_, ?_⟩
  · intro h; subst h; rfl
  · intro hall
    rw [hmain]
    unfold latestSwitchpointLE
    have hnil : sps.filter (fun sp => decide (sp.time ≤ t % secondsPerDay)) = [] := by
      apply List.filter_eq_nil_iff.mpr
      intro a ha
      simp only [decide_eq_true_eq]
      have := hall a ha
      omega
    rw [hnil]
    rfl
  · intro sp hmem heq
    cases sps with
    | nil => cases hmem
    | cons a rest =>
      show fsLoop (t % secondsPerDay) none (a :: rest) = some sp
      exact fsLoop_mem_eq _ _ hs none sp hmem heq

/-- C7 witness: on the test schedule 08:00→10, 12:00→5, 18:00→1 queried
at 09:00, the scan agrees with the latest-entry-≤ description and picks
the 08:00 entry. -/
theorem findSwitchpoint_latest_witness :
    findSwitchpoint [⟨28800, 10⟩, ⟨43200, 5⟩, ⟨64800, 1⟩] 32400 =
      latestSwitchpointLE [⟨28800, 10⟩, ⟨43200, 5⟩, ⟨64800, 1⟩] 32400 ∧
    findSwitchpoint [⟨28800, 10⟩, ⟨43200, 5⟩, ⟨64800, 1⟩] 32400 = some ⟨28800, 10⟩ :=
  ⟨(findSwitchpoint_latest [⟨28800, 10⟩, ⟨43200, 5⟩, ⟨64800, 1⟩] 32400 (by decide)).1,
   by decide⟩

/-- C10 counterexample: the claim says every permutation of the same
setpoints yields the same findSwitchpoint result for every query time.
With two setpoints sharing the time 08:00 the comparison sort cannot
distinguish them, the two orders both come out of `sortSetpoints`
unchanged, and a query at 08:30 returns setpoint 7 for one permutation
and setpoint 5 for the other. -/
theorem sortSetpoints_perm_counterexample :
    ([⟨28800, 5⟩, ⟨28800, 7⟩] : List SwitchedSetpoint).Perm [⟨28800, 7⟩, ⟨28800, 5⟩] ∧
    findSwitchpoint (sortSetpoints [⟨28800, 5⟩, ⟨28800, 7⟩]) 30600 ≠
      findSwitchpoint (sortSetpoints [⟨28800, 7⟩, ⟨28800, 5⟩]) 30600 := by
  constructor
  · exact List.Perm.swap _ _ _
  · decide

/-- C10 (amended): NewSwitchedSetpointController sorts the supplied
setpoint list ascending by time of day, and when the setpoints' times
are pairwise distinct, every permutation of the same setpoints gives the
same findSwitchpoint result at every query time, so callers need not
pre-sort; with duplicate times different permutations may resolve to
different setpoints. -/
theorem sortSetpoints_perm_invariant (l₁ l₂ : List SwitchedSetpoint) (t : Nat)
    (hd : l₁.Pairwise fun a b => a.time ≠ b.time) (hp : l₁.Perm l₂) :
    findSwitchpoint (sortSetpoints l₁) t = findSwitchpoint (sortSetpoints l₂) t := by
  suffices h : sortSetpoints l₁ = sortSetpoints l₂ by rw [h]
  have hsym : ∀ {x y : SwitchedSetpoint}, x.time ≠ y.time → y.time ≠ x.time :=
    fun h => Ne.symm h
  have hs₁ : List.Sorted spLE (sortSetpoints l₁) := List.sorted_insertionSort spLE l₁
  have hs₂ : List.Sorted spLE (sortSetpoints l₂) := List.sorted_insertionSort spLE l₂
  have hp₁ : (sortSetpoints l₁).Perm l₁ := List.perm_insertionSort spLE l₁
  have hp₂ : (sortSetpoints l₂).Perm l₂ := List.perm_insertionSort spLE l₂
  have hd₁ : (sortSetpoints l₁).Pairwise fun a b => a.time ≠ b.time :=
    (hp₁.pairwise_iff hsym).mpr hd
  have hd₂ : (sortSetpoints l₂).Pairwise fun a b => a.time ≠ b.time :=
    (hp₂.pairwise_iff hsym).mpr ((hp.pairwise_iff hsym).mp hd)
  have hlt₁ : List.Sorted spLT (sortSetpoints l₁) :=
    (List.Pairwise.and hs₁ hd₁).imp fun hab => Nat.lt_of_le_of_ne hab.1 hab.2
  have hlt₂ : List.Sorted spLT (sortSetpoints l₂) :=
    (List.Pairwise.and hs₂ hd₂).imp fun hab => Nat.lt_of_le_of_ne hab.1 hab.2
  have hperm : (sortSetpoints l₁).Perm (sortSetpoints l₂) :=
    hp₁.trans (hp.trans hp₂.symm)
  exact List.eq_of_perm_of_sorted hperm hlt₁ hlt₂

/-- C10 witness: the two orders of the distinct-time schedule
{08:00→10, 12:00→5} resolve identically at 09:00, to the 08:00 entry. -/
theorem sortSetpoints_perm_invariant_witness :
    findSwitchpoint (sortSetpoints [⟨43200, 5⟩, ⟨28800, 10⟩]) 32400 =
      findSwitchpoint (sortSetpoints [⟨28800, 10⟩, ⟨43200, 5⟩]) 32400 ∧
    findSwitchpoint (sortSetpoints [⟨43200, 5⟩, ⟨28800, 10⟩]) 32400 = some ⟨28800, 10⟩ :=
  ⟨sortSetpoints_perm_invariant [⟨43200, 5⟩, ⟨28800, 10⟩] [⟨28800, 10⟩, ⟨43200, 5⟩] 32400
      (by decide) (List.Perm.swap _ _ _),
   by decide⟩

end Scaler
